import Mathlib

/-!
Shallow embedding of the Sentinel-AI district risk-scoring pipeline.

The source files embedded here are:
* `src/utils/data_processing.py` — `analyze_single_dataset`, `analyze_multiple_datasets`;
* `src/data_cleanser.py` — `SentinelDataCleanser.clean_pipeline`;
* `src/components/ml_models.py` — `train_ml_models` (the confidence rescaling,
  the critical-probability column assignment, and the ensemble risk bucketing).

Machine reals are modelled by `ℚ`; a pandas `NaN` cell is modelled by `none`.
The outputs of the scikit-learn estimators (isolation-forest scores,
classifier probabilities) are opaque to the embedding and enter as
parameters; every piece of arithmetic and control flow downstream of them
is translated from the source.
-/

/-- The three risk tiers used by both aggregators and the ML stage. -/
inductive RiskLevel where
  | NORMAL
  | HIGH
  | CRITICAL
deriving DecidableEq, Repr

open RiskLevel

/-- Rule-based tier assignment, from `data_processing.py` line 64 and line 146:
`'CRITICAL' if anomaly_score > 60 else ('HIGH' if anomaly_score > 30 else 'NORMAL')`. -/
def risk_level (s : ℚ) : RiskLevel :=
  if s > 60 then CRITICAL else if s > 30 then HIGH else NORMAL

/-- `pd.cut` with right-closed bins and no `include_lowest`: the value `x`
falls in the first interval `(bins[k], bins[k+1]]` that contains it; a value
outside every interval gets no label (pandas `NaN`). -/
def pdCut {α : Type} : List ℚ → List α → ℚ → Option α
  | lo :: hi :: bs, l :: ls, x =>
      if lo < x ∧ x ≤ hi then some l else pdCut (hi :: bs) ls x
  | _, _, _ => none

/-- ML-derived tier, from `ml_models.py` lines 126-130:
`pd.cut(data['ml_ensemble_score'], bins=[0, 30, 60, 100], labels=['NORMAL', 'HIGH', 'CRITICAL'])`. -/
def ml_risk_level (s : ℚ) : Option RiskLevel :=
  pdCut [0, 30, 60, 100] [NORMAL, HIGH, CRITICAL] s

/-- Character-list version of `List.IsPrefix`, as a boolean. -/
def leadsList : List Char → List Char → Bool
  | [], _ => true
  | _ :: _, [] => false
  | a :: as, b :: bs => a == b && leadsList as bs

/-- Character-list version of `List.IsInfix`, as a boolean. -/
def containsList (needle : List Char) : List Char → Bool
  | [] => needle.isEmpty
  | c :: cs => leadsList needle (c :: cs) || containsList needle cs

/-- Substring test, modelling the Python `needle in s` operator. -/
def containsStr (needle s : String) : Bool :=
  containsList needle.toList s.toList

/-- Python `str.lower()`, character by character (ASCII behaviour). -/
def lowerStr (s : String) : String :=
  ⟨s.toList.map Char.toLower⟩

/-- Python `str.strip()`: drop whitespace from both ends. -/
def trimChars (l : List Char) : List Char :=
  ((l.dropWhile Char.isWhitespace).reverse.dropWhile Char.isWhitespace).reverse

/-- Python `str.strip()` on a string. -/
def trimStr (s : String) : String :=
  ⟨trimChars s.toList⟩

/-- Columns skipped during summation (`ignore_cols` in `data_processing.py`). -/
def ignoredCols : List String := ["date", "state", "district", "pincode"]

/-- One CSV row as the aggregators see it: the grouping key `district`, the
optional `state` value of the row, and the numeric coercion of each remaining
cell (`none` models a cell `pd.to_numeric(..., errors='coerce')` turns into
`NaN`, which contributes nothing to a column sum). -/
structure SRow where
  district : String
  state : Option String
  vals : List (String × Option ℚ)
deriving DecidableEq, Repr

/-- First value stored under key `c`. -/
def lookupCell : List (String × Option ℚ) → String → Option ℚ
  | [], _ => none
  | (n, v) :: rest, c => if n = c then v else lookupCell rest c

/-- Numeric contribution of row `r` in column `c`: the coerced value, `0` for
a `NaN` cell or a column the row does not carry. -/
def cellVal (r : SRow) (c : String) : ℚ :=
  (lookupCell r.vals c).getD 0

/-- `pd.to_numeric(group[col], errors='coerce').sum()`: `NaN` cells are
skipped, so each contributes `0`. -/
def colSum (rows : List SRow) (c : String) : ℚ :=
  (rows.map (fun r => cellVal r c)).sum

/-- Classification of a column name into the youth bucket:
`'5' in col or '17' in col` (`data_processing.py` line 48). -/
def isYouthCol (c : String) : Bool :=
  containsStr "5" c || containsStr "17" c

/-- Classification of a column name into the adult bucket:
`'18' in col or 'greater' in col.lower()` (line 50); tested only when the
youth test failed (`elif`). -/
def isAdultCol (c : String) : Bool :=
  containsStr "18" c || containsStr "greater" (lowerStr c)

/-- The `(total, youth_total, adult_total)` accumulator loop of
`analyze_single_dataset` (lines 41-53): every non-ignored column sum feeds
`total`; a youth-pattern column also feeds `youth_total`; otherwise an
adult-pattern column also feeds `adult_total`. -/
def bucketStep (rows : List SRow) (acc : ℚ × ℚ × ℚ) (c : String) : ℚ × ℚ × ℚ :=
  if lowerStr c ∈ ignoredCols then acc
  else
    let s := colSum rows c
    if isYouthCol c then (acc.1 + s, acc.2.1 + s, acc.2.2)
    else if isAdultCol c then (acc.1 + s, acc.2.1, acc.2.2 + s)
    else (acc.1 + s, acc.2.1, acc.2.2)

def sumTotals (cols : List String) (rows : List SRow) : ℚ × ℚ × ℚ :=
  cols.foldl (bucketStep rows) (0, 0, 0)

/-- One output row of `analyze_single_dataset`. -/
structure DistrictRec where
  district : String
  state : String
  total_updates : ℚ
  youth_updates : ℚ
  adult_updates : ℚ
  record_count : ℕ
  avg_per_record : ℚ
  youth_ratio : ℚ
  anomaly_score : ℚ
  risk_level : RiskLevel
  dataset_type : String
deriving DecidableEq, Repr

/-- Builds the record of one district group (`analyze_single_dataset`,
lines 33-78). -/
def mkDistrictRec (cols : List String) (dtype district : String)
    (rows : List SRow) : DistrictRec :=
  let state := ((rows.head?.map (fun r => r.state)).getD none).getD "Unknown"
  let t := sumTotals cols rows
  let record_count := rows.length
  let avg_per_record := if record_count > 0 then t.1 / record_count else 0
  let youth_ratio := if t.1 > 0 then t.2.1 / t.1 * 100 else 0
  let volume_score := min (t.1 / 10000) 40
  let demographic_score : ℚ := if youth_ratio > 60 ∨ youth_ratio < 20 then 20 else 0
  let frequency_score : ℚ :=
    if record_count > 100 then 30 else if record_count > 50 then 15 else 0
  let anomaly_score := volume_score + demographic_score + frequency_score
  { district := district
    state := state
    total_updates := t.1
    youth_updates := t.2.1
    adult_updates := t.2.2
    record_count := record_count
    avg_per_record := avg_per_record
    youth_ratio := youth_ratio
    anomaly_score := anomaly_score
    risk_level := risk_level anomaly_score
    dataset_type := dtype }

/-- First-appearance deduplication of a key list. -/
def dedupAux (seen : List String) : List String → List String
  | [] => []
  | d :: ds => if d ∈ seen then dedupAux seen ds else d :: dedupAux (d :: seen) ds

/-- Distinct district keys (`df.groupby` produces one group per distinct
key; output order is irrelevant here because the result is re-sorted by
anomaly score). -/
def districtsOf (rows : List SRow) : List String :=
  dedupAux [] (rows.map (fun r => r.district))

/-- Rows of one district group (`groupby('district')`). -/
def groupRows (rows : List SRow) (d : String) : List SRow :=
  rows.filter (fun r => r.district == d)

/-- `analyze_single_dataset` (`data_processing.py` lines 25-80): one record
per district, sorted descending by anomaly score. Returns `none` when the
frame has no `district` column (modelled by the flag `hasDistrict`). -/
def analyze_single_dataset (hasDistrict : Bool) (cols : List String)
    (rows : List SRow) (dtype : String) : Option (List DistrictRec) :=
  if hasDistrict then
    some (((districtsOf rows).map
            (fun d => mkDistrictRec cols dtype d (groupRows rows d))).insertionSort
          (fun a b => b.anomaly_score ≤ a.anomaly_score))
  else none

/-- One input frame of `analyze_multiple_datasets`: the flag records whether
a `district` column is present (a frame without one is skipped by the loop,
`data_processing.py` line 97). -/
structure MFrame where
  hasDistrict : Bool
  cols : List String
  rows : List SRow
deriving DecidableEq, Repr

/-- An input slot contributes only when the frame is supplied (`df is None`)
and carries a `district` column. -/
def activeFrame : Option MFrame → Option MFrame
  | none => none
  | some f => if f.hasDistrict then some f else none

/-- District keys contributed by one input slot. -/
def frameDistricts : Option MFrame → List String
  | none => []
  | some f => f.rows.map (fun r => r.district)

/-- Category total of district `d` in one input slot: the sums of all
non-ignored columns over the rows of that district
(`data_processing.py` lines 113-126). -/
def frameTotal (of : Option MFrame) (d : String) : ℚ :=
  match of with
  | none => 0
  | some f =>
      ((f.cols.filter (fun c => !(lowerStr c ∈ ignoredCols))).map
        (fun c => colSum (groupRows f.rows d) c)).sum

/-- First row carrying district `d` in one input slot. -/
def firstRowOf (of : Option MFrame) (d : String) : Option SRow :=
  match of with
  | none => none
  | some f => f.rows.find? (fun r => r.district == d)

/-- State recorded when a district is first seeded into the map; a missing
state column or value falls back to `Unknown` (line 104). -/
def multiState (e dm b : Option MFrame) (d : String) : String :=
  ((((firstRowOf e d).orElse (fun _ => firstRowOf dm d)).orElse
      (fun _ => firstRowOf b d)).bind (fun r => r.state)).getD "Unknown"

/-- One output row of `analyze_multiple_datasets`. -/
structure MultiRec where
  district : String
  state : String
  enrol_total : ℚ
  demo_total : ℚ
  bio_total : ℚ
  gap : ℚ
  gap_abs : ℚ
  compliance_rate : ℚ
  migration_index : ℚ
  anomaly_score : ℚ
  risk_level : RiskLevel
deriving DecidableEq, Repr

/-- The additive rule-based score of the multi-dataset aggregator
(`data_processing.py` lines 136-144): the three contributions are the capped
positive gap, the two mutually exclusive compliance bands, and the migration
flag. -/
def multiScore (gap compliance migration : ℚ) : ℚ :=
  (if gap > 0 then min (gap / 1000) 50 else 0) +
    (if compliance < 50 then 30 else if compliance < 80 then 15 else 0) +
    (if migration > 2 then 20 else 0)

/-- Derived metrics and rule-based score of one district
(`data_processing.py` lines 130-146). -/
def mkMultiRec (district state : String) (enrol demo bio : ℚ) : MultiRec :=
  let gap := demo - bio
  let compliance_rate := if demo > 0 then bio / demo * 100 else 100
  let migration_index := if enrol > 0 then demo / enrol else 0
  let anomaly_score := multiScore gap compliance_rate migration_index
  { district := district
    state := state
    enrol_total := enrol
    demo_total := demo
    bio_total := bio
    gap := gap
    gap_abs := |gap|
    compliance_rate := compliance_rate
    migration_index := migration_index
    anomaly_score := anomaly_score
    risk_level := risk_level anomaly_score }

/-- `analyze_multiple_datasets` (`data_processing.py` lines 83-162): one
record per district seen in any supplied frame, sorted descending by anomaly
score. -/
def analyze_multiple_datasets (e dm b : Option MFrame) : List MultiRec :=
  let e' := activeFrame e
  let dm' := activeFrame dm
  let b' := activeFrame b
  let dists := dedupAux [] (frameDistricts e' ++ frameDistricts dm' ++ frameDistricts b')
  ((dists.map (fun d =>
      mkMultiRec d (multiState e' dm' b' d)
        (frameTotal e' d) (frameTotal dm' d) (frameTotal b' d))).insertionSort
    (fun a b => b.anomaly_score ≤ a.anomaly_score))

/-- Min-max rescaling of the isolation-forest confidences to `[0,100]`
(`ml_models.py` lines 46-48). The code divides by `max_conf - min_conf` with
no guard, so a batch whose confidences are all equal produces `0/0`, i.e. a
`NaN` (modelled by `none`) in every row. -/
def ml_confidence_rescale (confs : List ℚ) : List (Option ℚ) :=
  match confs.min?, confs.max? with
  | some mn, some mx =>
      confs.map (fun c => if mx = mn then none else some ((c - mn) / (mx - mn) * 100))
  | _, _ => []

/-- The `ml_critical_probability` value of one row (`ml_models.py` lines
70-80): the probability of class `2` (CRITICAL) when the trained classifier
knows that class; else the last class column when at least two classes are
known; else the initial `0.0`. `classes` is the sorted class list of the
trained classifier and `probRow` the corresponding probability row. -/
def ml_critical_probability (classes : List ℕ) (probRow : List ℚ) : ℚ :=
  if 2 ∈ classes then probRow.getD (classes.indexOf 2) 0 * 100
  else if 1 < classes.length then probRow.getLastD 0 * 100
  else 0

/-- The classifier stage runs only on more than 10 rows (`ml_models.py`
line 60); when it runs, it assigns `ml_critical_probability` to every row. -/
def classifierCriticalCol (nrows : ℕ) (classes : List ℕ)
    (probs : List (List ℚ)) : Option (List ℚ) :=
  if nrows > 10 then some (probs.map (ml_critical_probability classes)) else none

/-- One column of a frame entering `SentinelDataCleanser.clean_pipeline`:
either numeric (`select_dtypes(include=[np.number])`) or categorical
(`object` dtype). A `none` entry is a null (`NaN`) cell. -/
inductive Col where
  | num (name : String) (vals : List (Option ℚ))
  | cat (name : String) (vals : List (Option String))
deriving DecidableEq, Repr

/-- Name of a column. -/
def Col.name : Col → String
  | .num n _ => n
  | .cat n _ => n

/-- Numeric-dtype test. -/
def Col.isNum : Col → Bool
  | .num _ _ => true
  | .cat _ _ => false

/-- Number of entries of a column. -/
def Col.size : Col → ℕ
  | .num _ vs => vs.length
  | .cat _ vs => vs.length

/-- Whether any entry of the column is null. -/
def Col.hasNull : Col → Bool
  | .num _ vs => vs.any (fun v => v.isNone)
  | .cat _ vs => vs.any (fun v => v.isNone)

/-- Whether the column has at least one non-null entry. -/
def Col.hasValue : Col → Bool
  | .num _ vs => vs.any (fun v => v.isSome)
  | .cat _ vs => vs.any (fun v => v.isSome)

/-- Rename a column. -/
def Col.rename (f : String → String) : Col → Col
  | .num n vs => .num (f n) vs
  | .cat n vs => .cat (f n) vs

/-- A frame as the cleanser sees it: a row count and a list of columns
(each expected to carry `nrows` entries). -/
structure CFrame where
  nrows : ℕ
  cols : List Col
deriving DecidableEq, Repr

/-- Stage 1 column-name standardization (`data_cleanser.py` line 38):
`c.strip().lower().replace(' ', '_').replace('-', '_')`. -/
def stdName (c : String) : String :=
  ⟨(trimChars c.toList).map (fun ch =>
      let l := Char.toLower ch
      if l = ' ' ∨ l = '-' then '_' else l)⟩

/-- Mean of the non-null entries; `none` when every entry is null (the
pandas mean of an all-null column is `NaN`). -/
def meanOf (vals : List (Option ℚ)) : Option ℚ :=
  let xs := vals.filterMap id
  if xs.length = 0 then none else some (xs.sum / xs.length)

/-- `fillna(m)`: filling with a `NaN` mean leaves the column unchanged. -/
def fillnaQ (vals : List (Option ℚ)) (m : Option ℚ) : List (Option ℚ) :=
  match m with
  | none => vals
  | some q => vals.map (fun v => some (v.getD q))

/-- Candidate comparison for the pandas mode: more frequent wins, a tie goes
to the lexicographically smaller value (`mode()` returns a sorted list and
the code takes element `0`). -/
def betterMode (xs : List String) (a b : String) : Bool :=
  xs.count a > xs.count b || (xs.count a = xs.count b && a < b)

/-- Pandas `mode()[0]` over the non-null entries; `none` when no non-null
entry exists. -/
def modeOf (vals : List (Option String)) : Option String :=
  let xs := vals.filterMap id
  xs.foldl
    (fun acc c =>
      match acc with
      | none => some c
      | some b => if betterMode xs c b then some c else some b)
    none

/-- Categorical imputation (`data_cleanser.py` lines 51-54): if the column
has any null, fill with the mode, or the literal `UNKNOWN` when the mode
list is empty. -/
def imputeCat (vals : List (Option String)) : List (Option String) :=
  if vals.any (fun v => v.isNone) then
    let m := (modeOf vals).getD "UNKNOWN"
    vals.map (fun v => some (v.getD m))
  else vals

/-- Stage 2 missing-value handling: numeric columns are filled with their
mean (lines 48-49), categorical columns with their mode (lines 51-54). -/
def imputeCol : Col → Col
  | .num n vs => .num n (fillnaQ vs (meanOf vs))
  | .cat n vs => .cat n (imputeCat vs)

/-- Name substrings excluding a numeric column from outlier detection
(`data_cleanser.py` lines 59-60). -/
def idLikePieces : List String := ["id", "code", "pincode", "zip"]

/-- A numeric column participates in outlier detection iff its lowered name
contains none of the id-like substrings. -/
def eligibleName (c : String) : Bool :=
  !(idLikePieces.any (fun p => containsStr p (lowerStr c)))

/-- The numeric columns fed to the outlier detector. -/
def eligibleNumericNames (cols : List Col) : List String :=
  (cols.filter (fun c => c.isNum && eligibleName c.name)).map Col.name

/-- `np.percentile(scores, 98)` with the default linear interpolation:
with `n` values sorted ascending, the result sits at fractional position
`98 * (n - 1) / 100`. -/
def percentile98 (xs : List ℚ) : ℚ :=
  let s := xs.insertionSort (fun a b => a ≤ b)
  let n := s.length
  if n = 0 then 0
  else
    let pos := 98 * (n - 1)
    let i := pos / 100
    let frac : ℚ := (pos % 100 : ℕ) / 100
    let lo := s.getD i 0
    let hi := s.getD (i + 1) lo
    lo + frac * (hi - lo)

/-- Row filter of stage 3 (lines 85-88): a row survives iff its anomaly
score does not strictly exceed the 98th percentile of the scores. -/
def filterVals {β : Type} (scores : List ℚ) (thr : ℚ) (vals : List β) : List β :=
  ((vals.zip scores).filter (fun p => !decide (thr < p.2))).map (fun p => p.1)

/-- Stage 3 removal applied to one column. -/
def Col.filterRows (scores : List ℚ) (thr : ℚ) : Col → Col
  | .num n vs => .num n (filterVals scores thr vs)
  | .cat n vs => .cat n (filterVals scores thr vs)

/-- Number of rows surviving stage 3. -/
def keptCount (scores : List ℚ) : ℕ :=
  (scores.filter (fun s => !decide (percentile98 scores < s))).length

/-- Python `str.title()`: an alphabetic character is uppercased when the
preceding character is not alphabetic, lowercased otherwise. -/
def titleChars : Bool → List Char → List Char
  | _, [] => []
  | prev, c :: cs =>
      (if c.isAlpha then (if prev then c.toLower else c.toUpper) else c) ::
        titleChars c.isAlpha cs

/-- Python `str.strip().str.title()` on one cell. -/
def pyTitle (s : String) : String :=
  ⟨titleChars false (trimChars s.toList)⟩

/-- Stage 4 (lines 92-98): trim and title-case the `state` and `district`
columns (the `.str` accessor transforms string cells; nulls pass through,
though none remain after stage 2). -/
def stage4Col (c : Col) : Col :=
  match c with
  | .cat n vs =>
      if n = "state" ∨ n = "district" then
        .cat n (vs.map (fun v => v.map pyTitle))
      else c
  | .num _ _ => c

/-- Whether the cell of column `c` in row `i` is non-null. -/
def Col.entry : Col → ℕ → Bool
  | .num _ vs, i => (vs.getD i none).isSome
  | .cat _ vs, i => (vs.getD i none).isSome

/-- Count of non-null cells of row `i` (`df_clean.count(axis=1)`). -/
def rowNonNullCount (cols : List Col) (i : ℕ) : ℕ :=
  (cols.filter (fun c => c.entry i)).length

/-- Stage 5 completeness of row `i` (line 101):
`count(axis=1) / len(columns) * 100`. -/
def rowCompleteness (cols : List Col) (i : ℕ) : ℚ :=
  (rowNonNullCount cols i : ℚ) / (cols.length : ℚ) * 100

/-- The quality-rating bucketing (lines 105-109): `pd.cut` with bins
`[0, 50, 75, 90, 100]` and labels `Poor`, `Fair`, `Good`, `Excellent`. -/
def qualityBucket (s : ℚ) : Option String :=
  pdCut [0, 50, 75, 90, 100] ["Poor", "Fair", "Good", "Excellent"] s

/-- Stage 5: append the `data_quality_score` and `quality_rating` columns
computed from per-row completeness over the current `n` rows. -/
def addQuality (n : ℕ) (cols : List Col) : List Col :=
  let comp := (List.range n).map (fun i => rowCompleteness cols i)
  cols ++
    [Col.num "data_quality_score" (comp.map some),
     Col.cat "quality_rating" (comp.map qualityBucket)]

/-- `SentinelDataCleanser.clean_pipeline` (`data_cleanser.py` lines 27-147).
The isolation-forest scores of stage 3 are opaque to the embedding and enter
as the parameter `scores` (one score per row); they are consulted only when
at least two eligible numeric columns exist. -/
def clean_pipeline (scores : List ℚ) (f : CFrame) : CFrame :=
  let c1 := f.cols.map (Col.rename stdName)
  let c2 := c1.map imputeCol
  let runOutliers := 2 ≤ (eligibleNumericNames c2).length
  let thr := percentile98 scores
  let c3 := if runOutliers then c2.map (Col.filterRows scores thr) else c2
  let n3 := if runOutliers then keptCount scores else f.nrows
  let c4 := c3.map stage4Col
  ⟨n3, addQuality n3 c4⟩

/-- Whether any column of a frame still contains a null. -/
def frameHasNull (f : CFrame) : Bool :=
  f.cols.any (fun c => c.hasNull)

/-! Concrete inputs used by witnesses and counterexamples. -/

def puneRow : SRow :=
  ⟨"Pune", some "Maharashtra", [("age_5_17", some 100), ("age_18_greater", some 300)]⟩

def nashikRow : SRow :=
  ⟨"Nashik", some "Maharashtra", [("age_5_17", some 50), ("age_18_greater", some 150)]⟩

def scnCols : List String := ["state", "district", "age_5_17", "age_18_greater"]

def scnRows : List SRow := List.replicate 60 puneRow ++ List.replicate 5 nashikRow

/-- The output rows of the Pune/Nashik scenario (computed below). -/
def puneRec : DistrictRec :=
  ⟨"Pune", "Maharashtra", 24000, 6000, 18000, 60, 400, 25, 87/5, NORMAL, "enrollment"⟩

def nashikRec : DistrictRec :=
  ⟨"Nashik", "Maharashtra", 1000, 250, 750, 5, 200, 25, 1/10, NORMAL, "enrollment"⟩

/-- A tiny single-dataset input with one district. -/
def sfCols : List String := ["v"]

def sfRows : List SRow := [⟨"D", some "S", [("v", some 5000)]⟩]

def sfRec : DistrictRec := mkDistrictRec sfCols "test" "D" (groupRows sfRows "D")

/-- A single-dataset input whose numeric cells include a negative value. -/
def negCols : List String := ["age_5_17", "other"]

def negRow : SRow := ⟨"D", none, [("age_5_17", some 200), ("other", some (-100))]⟩

def negOut : List DistrictRec :=
  (analyze_single_dataset true negCols [negRow] "test").getD []

/-- The single output row of the negative-value input (computed below): its
youth total 200 exceeds its overall total 100, so the ratio is 200. -/
def negRec : DistrictRec :=
  ⟨"D", "Unknown", 100, 200, 0, 1, 100, 200, 2001/100, NORMAL, "test"⟩

/-- A multi-dataset input with only a biometric frame. -/
def mfB : MFrame := ⟨true, ["v"], [⟨"D", some "S", [("v", some 7)]⟩]⟩

def mfBRec : MultiRec := ⟨"D", "S", 0, 0, 7, -7, 7, 100, 0, 0, NORMAL⟩

/-- A frame with a single all-null numeric column. -/
def nullColFrame : CFrame := ⟨1, [Col.num "x" [none]]⟩

/-- A frame with one partially-null numeric and one partially-null
categorical column. -/
def wFrame : CFrame := ⟨2, [Col.num "a" [some 1, none], Col.cat "b" [some "x", none]]⟩

/-- A two-row frame with two eligible numeric columns. -/
def twoRowFrame : CFrame :=
  ⟨2, [Col.num "a" [some 1, some 2], Col.num "b" [some 3, some 4]]⟩

/-!
## Theorems
-/

/-- Structure of any row of the single-dataset output. -/
theorem analyze_single_mem {hasD : Bool} {cols : List String} {rows : List SRow}
    {dtype : String} {out : List DistrictRec}
    (h : analyze_single_dataset hasD cols rows dtype = some out)
    {r : DistrictRec} (hr : r ∈ out) :
    ∃ d, r = mkDistrictRec cols dtype d (groupRows rows d) := by
  unfold analyze_single_dataset at h
  by_cases hd : hasD
  · rw [if_pos hd] at h
    obtain rfl := (Option.some.injEq _ _).mp h
    rw [List.mem_insertionSort] at hr
    obtain ⟨d, _, rfl⟩ := List.mem_map.mp hr
    exact ⟨d, rfl⟩
  · rw [if_neg hd] at h
    exact absurd h (by simp)

/-- Structure of any row of the multi-dataset output. -/
theorem analyze_multi_mem {e dm b : Option MFrame} {r : MultiRec}
    (hr : r ∈ analyze_multiple_datasets e dm b) :
    ∃ d, r =
      mkMultiRec d (multiState (activeFrame e) (activeFrame dm) (activeFrame b) d)
        (frameTotal (activeFrame e) d) (frameTotal (activeFrame dm) d)
        (frameTotal (activeFrame b) d) := by
  unfold analyze_multiple_datasets at hr
  rw [List.mem_insertionSort] at hr
  obtain ⟨d, _, rfl⟩ := List.mem_map.mp hr
  exact ⟨d, rfl⟩

/-- Evaluation of the tiny single-dataset input. -/
theorem sf_eval : analyze_single_dataset true sfCols sfRows "test" = some [sfRec] := rfl

/-- Evaluation of the biometric-only multi-dataset input. -/
theorem mfB_eval : analyze_multiple_datasets none none (some mfB) = [mfBRec] := by
  norm_num +decide [analyze_multiple_datasets, activeFrame, mfB, mfBRec,
    frameDistricts, dedupAux, frameTotal, groupRows, colSum, cellVal, lookupCell,
    multiState, firstRowOf, mkMultiRec, multiScore, risk_level,
    List.insertionSort, List.orderedInsert, List.filter_cons, List.find?,
    show ¬(lowerStr "v" ∈ ignoredCols) by decide]

/-- C1 (amended): every row of either aggregator carries
`risk_level = risk_level anomaly_score`; the rule-based tier follows the cut
points 30 and 60 on all scores (and maps both 0 and 30 to NORMAL), while the
ML tier realizes the same cut points only on `(0, 100]`: a score of exactly
0 (or outside `(0, 100]`) receives no label. -/
theorem risk_tier_function :
    (∀ (hasD : Bool) (cols : List String) (rows : List SRow) (dtype : String)
        (out : List DistrictRec),
        analyze_single_dataset hasD cols rows dtype = some out →
        ∀ r ∈ out, r.risk_level = risk_level r.anomaly_score) ∧
    (∀ e dm b, ∀ r ∈ analyze_multiple_datasets e dm b,
        r.risk_level = risk_level r.anomaly_score) ∧
    (∀ s : ℚ, (s ≤ 30 → risk_level s = NORMAL) ∧
        (30 < s → s ≤ 60 → risk_level s = HIGH) ∧
        (60 < s → risk_level s = CRITICAL)) ∧
    (∀ s : ℚ, (0 < s → s ≤ 30 → ml_risk_level s = some NORMAL) ∧
        (30 < s → s ≤ 60 → ml_risk_level s = some HIGH) ∧
        (60 < s → s ≤ 100 → ml_risk_level s = some CRITICAL)) ∧
    ml_risk_level 0 = none := by
  refine ⟨?_, ?_, ?_, ?_, by decide⟩
  · intro hasD cols rows dtype out h r hr
    obtain ⟨d, rfl⟩ := analyze_single_mem h hr
    rfl
  · intro e dm b r hr
    obtain ⟨d, rfl⟩ := analyze_multi_mem hr
    rfl
  · intro s
    refine ⟨fun h => ?_, fun h1 h2 => ?_, fun h => ?_⟩
    · simp only [risk_level]
      rw [if_neg (by linarith), if_neg (by linarith)]
    · simp only [risk_level]
      rw [if_neg (by linarith), if_pos h1]
    · simp only [risk_level]
      rw [if_pos h]
  · intro s
    refine ⟨fun h1 h2 => ?_, fun h1 h2 => ?_, fun h1 h2 => ?_⟩ <;>
      simp only [ml_risk_level, pdCut]
    · rw [if_pos ⟨h1, h2⟩]
    · rw [if_neg (by rintro ⟨_, h⟩; linarith), if_pos ⟨h1, h2⟩]
    · rw [if_neg (by rintro ⟨_, h⟩; linarith),
        if_neg (by rintro ⟨_, h⟩; linarith), if_pos ⟨h1, h2⟩]

/-- C1 counterexample: an ML ensemble score of exactly 0 does not get the
tier NORMAL (`pd.cut` leaves it unlabeled). -/
theorem ml_risk_level_zero_not_normal :
    (ml_risk_level 0 = some NORMAL) = False :=
  eq_false (by decide)

/-- C1 witness: the amended theorem applied to concrete inputs. -/
theorem risk_tier_function_check :
    sfRec.risk_level = risk_level sfRec.anomaly_score ∧
    mfBRec.risk_level = risk_level mfBRec.anomaly_score ∧
    risk_level 45 = HIGH ∧ ml_risk_level 20 = some NORMAL := by
  refine ⟨risk_tier_function.1 true sfCols sfRows "test" [sfRec] sf_eval sfRec
      (List.mem_singleton.mpr rfl),
    risk_tier_function.2.1 none none (some mfB) mfBRec
      (by rw [mfB_eval]; exact List.mem_singleton.mpr rfl),
    (risk_tier_function.2.2.1 45).2.1 (by norm_num) (by norm_num),
    (risk_tier_function.2.2.2.1 20).1 (by norm_num) (by norm_num)⟩

/-- The three additive contributions keep the multi-dataset score within
`[0, 100]`. -/
theorem multiScore_bounds (g c m : ℚ) : 0 ≤ multiScore g c m ∧ multiScore g c m ≤ 100 := by
  unfold multiScore
  have hgap : (0:ℚ) ≤ (if g > 0 then min (g / 1000) 50 else 0) ∧
      (if g > 0 then min (g / 1000) 50 else 0) ≤ 50 := by
    split_ifs with h
    · exact ⟨le_min (by positivity) (by norm_num), min_le_right _ _⟩
    · norm_num
  have hc : (0:ℚ) ≤ (if c < 50 then (30:ℚ) else if c < 80 then 15 else 0) ∧
      (if c < 50 then (30:ℚ) else if c < 80 then 15 else 0) ≤ 30 := by
    split_ifs <;> norm_num
  have hm : (0:ℚ) ≤ (if m > 2 then (20:ℚ) else 0) ∧
      (if m > 2 then (20:ℚ) else 0) ≤ 20 := by
    split_ifs <;> norm_num
  constructor
  · linarith [hgap.1, hc.1, hm.1]
  · linarith [hgap.2, hc.2, hm.2]

/-- C9: every district row of the multi-dataset aggregator has a rule-based
anomaly score in `[0, 100]`, for any combination of present or absent frames
and any totals (negative ones included). -/
theorem multi_anomaly_score_range :
    ∀ e dm b, ∀ r ∈ analyze_multiple_datasets e dm b,
      0 ≤ r.anomaly_score ∧ r.anomaly_score ≤ 100 := by
  intro e dm b r hr
  obtain ⟨d, rfl⟩ := analyze_multi_mem hr
  exact multiScore_bounds _ _ _

/-- C9 witness: the range theorem applied to a concrete input. -/
theorem multi_anomaly_score_range_check :
    0 ≤ mfBRec.anomaly_score ∧ mfBRec.anomaly_score ≤ 100 :=
  multi_anomaly_score_range none none (some mfB) mfBRec
    (by rw [mfB_eval]; exact List.mem_singleton.mpr rfl)

/-- C8: in every multi-dataset row, a zero demographic total forces
`compliance_rate = 100` (whatever the biometric total), a zero enrollment
total forces `migration_index = 0`, and the positive-denominator cases use
the stated ratios; the embedding is a total function, so neither zero
denominator can raise. -/
theorem zero_denominator_fallbacks :
    ∀ e dm b, ∀ r ∈ analyze_multiple_datasets e dm b,
      (r.demo_total = 0 → r.compliance_rate = 100) ∧
      (0 < r.demo_total → r.compliance_rate = r.bio_total / r.demo_total * 100) ∧
      (r.enrol_total = 0 → r.migration_index = 0) ∧
      (0 < r.enrol_total → r.migration_index = r.demo_total / r.enrol_total) := by
  intro e dm b r hr
  obtain ⟨d, rfl⟩ := analyze_multi_mem hr
  dsimp only [mkMultiRec]
  refine ⟨fun h => ?_, fun h => ?_, fun h => ?_, fun h => ?_⟩
  · rw [if_neg (by rw [h]; exact lt_irrefl 0)]
  · rw [if_pos h]
  · rw [if_neg (by rw [h]; exact lt_irrefl 0)]
  · rw [if_pos h]

/-- C8 witness: the fallback theorem applied to a concrete input whose
demographic and enrollment totals are both zero. -/
theorem zero_denominator_fallbacks_check :
    mfBRec.compliance_rate = 100 ∧ mfBRec.migration_index = 0 := by
  have h := zero_denominator_fallbacks none none (some mfB) mfBRec
    (by rw [mfB_eval]; exact List.mem_singleton.mpr rfl)
  exact ⟨h.1 rfl, h.2.2.1 rfl⟩

/-- C10: when the tier classifier is trained (more than 10 districts) but
knows exactly one class and that class is not CRITICAL (label 2), every row
receives `ml_critical_probability = 0`; the last-class fallback needs at
least two known classes. -/
theorem single_class_zero_critical_prob :
    ∀ (n c : ℕ) (probs : List (List ℚ)) (out : List ℚ),
      10 < n → c ≠ 2 →
      classifierCriticalCol n [c] probs = some out →
      ∀ v ∈ out, v = 0 := by
  intro n c probs out hn hc h v hv
  unfold classifierCriticalCol at h
  rw [if_pos hn] at h
  obtain rfl := (Option.some.injEq _ _).mp h
  obtain ⟨row, _, rfl⟩ := List.mem_map.mp hv
  unfold ml_critical_probability
  rw [if_neg (by simpa using fun h => hc h.symm), if_neg (by simp)]

/-- C10 witness: a trained single-class classifier with class 0 yields the
zero column. -/
theorem single_class_zero_critical_prob_check :
    classifierCriticalCol 11 [0] [[1]] = some [0] ∧
    ∀ v ∈ [(0:ℚ)], v = 0 := by
  refine ⟨by decide, ?_⟩
  exact single_class_zero_critical_prob 11 0 [[1]] [0] (by norm_num) (by norm_num)
    (by decide)

/-- C4 (the spec is right, the code lacks the guard): with every detector
confidence equal, the min-max rescaling divides zero by zero and every
`ml_confidence` becomes NaN (`none`) instead of a fallback constant. -/
theorem confidence_rescale_nan_on_equal :
    ml_confidence_rescale [5, 5, 5] = [none, none, none] := by decide

/-- The two appended quality columns of stage 5: the rating column is the
`pd.cut` image of the same completeness list that fills the score column. -/
theorem addQuality_getLast (n : ℕ) (cols : List Col) :
    (addQuality n cols).getLast? =
      some (Col.cat "quality_rating"
        (((List.range n).map (fun i => rowCompleteness cols i)).map qualityBucket)) ∧
    (addQuality n cols).dropLast.getLast? =
      some (Col.num "data_quality_score"
        (((List.range n).map (fun i => rowCompleteness cols i)).map some)) := by
  unfold addQuality
  constructor
  · rw [show ∀ a b : Col, cols ++ [a, b] = (cols ++ [a]) ++ [b] from by simp,
      List.getLast?_concat]
  · rw [show ∀ a b : Col, cols ++ [a, b] = (cols ++ [a]) ++ [b] from by simp,
      List.dropLast_concat, List.getLast?_concat]

/-- C6 (amended): `quality_rating` is the `pd.cut` bucketing of
`data_quality_score` with right-closed bins: `(0,50]` Poor, `(50,75]` Fair,
`(75,90]` Good, `(90,100]` Excellent; a score of exactly 50 is Poor, exactly
90 is Good, and exactly 0 receives no rating (null). In every cleansed
frame the rating column is the bucket image of the very completeness list
that fills the score column. -/
theorem quality_rating_cut_semantics :
    (∀ s : ℚ,
      (0 < s → s ≤ 50 → qualityBucket s = some "Poor") ∧
      (50 < s → s ≤ 75 → qualityBucket s = some "Fair") ∧
      (75 < s → s ≤ 90 → qualityBucket s = some "Good") ∧
      (90 < s → s ≤ 100 → qualityBucket s = some "Excellent") ∧
      (s ≤ 0 → qualityBucket s = none) ∧
      (100 < s → qualityBucket s = none)) ∧
    qualityBucket 50 = some "Poor" ∧
    qualityBucket 90 = some "Good" ∧
    qualityBucket 0 = none ∧
    (∀ scores f, ∃ comp : List ℚ,
      (clean_pipeline scores f).cols.getLast? =
        some (Col.cat "quality_rating" (comp.map qualityBucket)) ∧
      (clean_pipeline scores f).cols.dropLast.getLast? =
        some (Col.num "data_quality_score" (comp.map some))) := by
  refine ⟨?_, by decide, by decide, by decide, ?_⟩
  · intro s
    refine ⟨fun h1 h2 => ?_, fun h1 h2 => ?_, fun h1 h2 => ?_, fun h1 h2 => ?_,
      fun h => ?_, fun h => ?_⟩ <;> simp only [qualityBucket, pdCut]
    · rw [if_pos ⟨h1, h2⟩]
    · rw [if_neg (by rintro ⟨_, h⟩; linarith), if_pos ⟨h1, h2⟩]
    · rw [if_neg (by rintro ⟨_, h⟩; linarith), if_neg (by rintro ⟨_, h⟩; linarith),
        if_pos ⟨h1, h2⟩]
    · rw [if_neg (by rintro ⟨_, h⟩; linarith), if_neg (by rintro ⟨_, h⟩; linarith),
        if_neg (by rintro ⟨_, h⟩; linarith), if_pos ⟨h1, h2⟩]
    · rw [if_neg (by rintro ⟨h', _⟩; linarith), if_neg (by rintro ⟨h', _⟩; linarith),
        if_neg (by rintro ⟨h', _⟩; linarith), if_neg (by rintro ⟨h', _⟩; linarith)]
    · rw [if_neg (by rintro ⟨_, h'⟩; linarith), if_neg (by rintro ⟨_, h'⟩; linarith),
        if_neg (by rintro ⟨_, h'⟩; linarith), if_neg (by rintro ⟨_, h'⟩; linarith)]
  · intro scores f
    exact ⟨_, (addQuality_getLast _ _).1, (addQuality_getLast _ _).2⟩

/-- C6 counterexample: a quality score of exactly 50 is rated Poor by the
code, not Fair as claimed. -/
theorem quality_rating_fifty_not_fair :
    (qualityBucket 50 = some "Fair") = False :=
  eq_false (by decide)

/-- C6 witness: the bucket theorem applied at concrete scores and to a
concrete frame. -/
theorem quality_rating_cut_check :
    qualityBucket 60 = some "Fair" ∧ qualityBucket 95 = some "Excellent" :=
  ⟨(quality_rating_cut_semantics.1 60).2.1 (by norm_num) (by norm_num),
   (quality_rating_cut_semantics.1 95).2.2.2.1 (by norm_num) (by norm_num)⟩

set_option maxHeartbeats 2000000 in
/-- Full evaluation of the Pune/Nashik scenario of the spec. -/
theorem scn_eval :
    (analyze_single_dataset true scnCols scnRows "enrollment").getD [] =
      [puneRec, nashikRec] := by
  norm_num +decide [analyze_single_dataset, districtsOf, dedupAux, groupRows,
    mkDistrictRec, sumTotals, bucketStep, colSum, cellVal, lookupCell, scnRows, scnCols,
    puneRow, nashikRow, puneRec, nashikRec, risk_level, List.replicate,
    List.insertionSort, List.orderedInsert, List.filter_cons,
    show (lowerStr "state" ∈ ignoredCols) by decide,
    show (lowerStr "district" ∈ ignoredCols) by decide,
    show ¬(lowerStr "age_5_17" ∈ ignoredCols) by decide,
    show ¬(lowerStr "age_18_greater" ∈ ignoredCols) by decide,
    show isYouthCol "age_5_17" = true by decide,
    show isYouthCol "age_18_greater" = false by decide,
    show isAdultCol "age_18_greater" = true by decide]

/-- C2 (amended): in the 60-row Pune / 5-row Nashik scenario the Pune row
has total 24000, youth 6000, ratio 25, record count 60 — but the frequency
contribution of 60 records is 15 (not 30, which needs more than 100
records), so the anomaly score is 2.4 + 0 + 15 = 17.4 and the tier is
NORMAL. -/
theorem pune_scenario_actual :
    ∃ r ∈ (analyze_single_dataset true scnCols scnRows "enrollment").getD [],
      r.district = "Pune" ∧ r.state = "Maharashtra" ∧ r.total_updates = 24000 ∧
      r.youth_updates = 6000 ∧ r.youth_ratio = 25 ∧ r.record_count = 60 ∧
      r.anomaly_score = 87/5 ∧ r.risk_level = NORMAL := by
  rw [scn_eval]
  exact ⟨puneRec, by simp, rfl, rfl, rfl, rfl, rfl, rfl, rfl, rfl⟩

/-- C2 counterexample: the scenario does not produce the claimed
frequency-30 outcome — no Pune row has anomaly score 32.4 or tier HIGH. -/
theorem pune_scenario_claimed_false :
    (∃ r ∈ (analyze_single_dataset true scnCols scnRows "enrollment").getD [],
      r.district = "Pune" ∧ r.anomaly_score = 162/5 ∧ r.risk_level = HIGH) = False := by
  apply eq_false
  rintro ⟨r, hr, hd, hs, -⟩
  rw [scn_eval] at hr
  simp only [List.mem_cons, List.not_mem_nil, or_false] at hr
  rcases hr with hr | hr
  · rw [hr] at hs
    norm_num [puneRec] at hs
  · rw [hr] at hd
    exact (by decide : ¬("Nashik" = "Pune")) hd

/-- Projection lemmas of the single-dataset record builder. -/
theorem mkDistrictRec_total (cols : List String) (dt d : String) (rows : List SRow) :
    (mkDistrictRec cols dt d rows).total_updates = (sumTotals cols rows).1 := rfl

theorem mkDistrictRec_youth (cols : List String) (dt d : String) (rows : List SRow) :
    (mkDistrictRec cols dt d rows).youth_updates = (sumTotals cols rows).2.1 := rfl

theorem mkDistrictRec_ratio (cols : List String) (dt d : String) (rows : List SRow) :
    (mkDistrictRec cols dt d rows).youth_ratio =
      if (sumTotals cols rows).1 > 0 then
        (sumTotals cols rows).2.1 / (sumTotals cols rows).1 * 100
      else 0 := rfl

/-- Column sums of a group with nonnegative cells are nonnegative. -/
theorem colSum_nonneg {rows : List SRow}
    (h : ∀ r ∈ rows, ∀ c, 0 ≤ cellVal r c) (c : String) : 0 ≤ colSum rows c := by
  apply List.sum_nonneg
  rintro x hx
  obtain ⟨r, hr, rfl⟩ := List.mem_map.mp hx
  exact h r hr c

/-- One step of the accumulator loop preserves `0 ≤ youth ≤ total`. -/
theorem bucketStep_invariant {rows : List SRow}
    (h : ∀ c, 0 ≤ colSum rows c) (acc : ℚ × ℚ × ℚ) (c : String)
    (h1 : 0 ≤ acc.2.1) (h2 : acc.2.1 ≤ acc.1) :
    0 ≤ (bucketStep rows acc c).2.1 ∧
      (bucketStep rows acc c).2.1 ≤ (bucketStep rows acc c).1 := by
  unfold bucketStep
  have hs := h c
  split_ifs <;> (try dsimp only) <;> constructor <;> linarith

/-- The accumulated youth total stays within `[0, total]` when all cells are
nonnegative. -/
theorem sumTotals_invariant (cols : List String) (rows : List SRow)
    (h : ∀ c, 0 ≤ colSum rows c) :
    0 ≤ (sumTotals cols rows).2.1 ∧ (sumTotals cols rows).2.1 ≤ (sumTotals cols rows).1 := by
  unfold sumTotals
  suffices H : ∀ (init : ℚ × ℚ × ℚ), 0 ≤ init.2.1 → init.2.1 ≤ init.1 →
      0 ≤ (cols.foldl (bucketStep rows) init).2.1 ∧
        (cols.foldl (bucketStep rows) init).2.1 ≤ (cols.foldl (bucketStep rows) init).1 by
    exact H (0, 0, 0) le_rfl le_rfl
  induction cols with
  | nil => exact fun init h1 h2 => ⟨h1, h2⟩
  | cons c cs ih =>
    intro init h1 h2
    rw [List.foldl_cons]
    have hstep := bucketStep_invariant h init c h1 h2
    exact ih (bucketStep rows init c) hstep.1 hstep.2

/-- C7 (amended): in every single-dataset row, `youth_ratio` equals
`youth_updates / total_updates * 100` whenever the total is positive and is
exactly 0 whenever the total is 0 (or negative); the `[0, 100]` range is
guaranteed when every numeric cell of the input is nonnegative — with
negative cells the ratio can leave the range. -/
theorem youth_ratio_formula :
    ∀ (hasD : Bool) (cols : List String) (rows : List SRow) (dtype : String)
      (out : List DistrictRec),
      analyze_single_dataset hasD cols rows dtype = some out →
      ∀ r ∈ out,
        (r.total_updates ≤ 0 → r.youth_ratio = 0) ∧
        (0 < r.total_updates → r.youth_ratio = r.youth_updates / r.total_updates * 100) ∧
        ((∀ rw ∈ rows, ∀ c, 0 ≤ cellVal rw c) → 0 < r.total_updates →
          0 ≤ r.youth_ratio ∧ r.youth_ratio ≤ 100) := by
  intro hasD cols rows dtype out h r hr
  obtain ⟨d, rfl⟩ := analyze_single_mem h hr
  rw [mkDistrictRec_total, mkDistrictRec_youth, mkDistrictRec_ratio]
  refine ⟨fun hle => ?_, fun hpos => ?_, fun hnn hpos => ?_⟩
  · rw [if_neg (not_lt.mpr hle)]
  · rw [if_pos hpos]
  · have hcell : ∀ c, 0 ≤ colSum (groupRows rows d) c := fun c =>
      colSum_nonneg (fun rw hrw c' => hnn rw (List.mem_of_mem_filter hrw) c') c
    have hinv := sumTotals_invariant cols (groupRows rows d) hcell
    rw [if_pos hpos]
    constructor
    · exact mul_nonneg (div_nonneg hinv.1 (le_of_lt hpos)) (by norm_num)
    · have hd1 : (sumTotals cols (groupRows rows d)).2.1 /
          (sumTotals cols (groupRows rows d)).1 ≤ 1 :=
        (div_le_one hpos).mpr hinv.2
      have := mul_le_mul_of_nonneg_right hd1 (by norm_num : (0:ℚ) ≤ 100)
      linarith

/-- Evaluation of the negative-cell input. -/
theorem neg_eval : negOut = [negRec] := by
  norm_num +decide [negOut, analyze_single_dataset, districtsOf, dedupAux,
    groupRows, mkDistrictRec, sumTotals, bucketStep, colSum, cellVal,
    lookupCell, negCols, negRow, negRec, risk_level, List.insertionSort,
    List.orderedInsert, List.filter_cons,
    show ¬(lowerStr "age_5_17" ∈ ignoredCols) by decide,
    show ¬(lowerStr "other" ∈ ignoredCols) by decide,
    show isYouthCol "age_5_17" = true by decide,
    show isYouthCol "other" = false by decide,
    show isAdultCol "other" = false by decide]

/-- C7 counterexample: with a negative numeric cell the ratio escapes
`[0, 100]` — the claimed bound is false as stated. -/
theorem youth_ratio_claim_false :
    (∀ r ∈ negOut, 0 < r.total_updates →
      0 ≤ r.youth_ratio ∧ r.youth_ratio ≤ 100) = False := by
  apply eq_false
  intro h
  have hb := (h negRec (by rw [neg_eval]; exact List.mem_singleton.mpr rfl)
    (by norm_num [negRec])).2
  norm_num [negRec] at hb

/-- C7 witness: the amended theorem applied to a concrete nonnegative
input. -/
theorem youth_ratio_formula_check :
    0 ≤ sfRec.youth_ratio ∧ sfRec.youth_ratio ≤ 100 := by
  have h := youth_ratio_formula true sfCols sfRows "test" [sfRec] sf_eval sfRec
    (List.mem_singleton.mpr rfl)
  apply h.2.2
  · intro rw hrw c
    rw [List.mem_singleton.mp hrw]
    simp only [cellVal, lookupCell]
    split_ifs <;> norm_num
  · show 0 < (sumTotals sfCols (groupRows sfRows "D")).1
    norm_num +decide [sumTotals, bucketStep, groupRows, colSum, cellVal,
      lookupCell, sfCols, sfRows, List.filter_cons,
      show ¬(lowerStr "v" ∈ ignoredCols) by decide,
      show isYouthCol "v" = false by decide,
      show isAdultCol "v" = false by decide]

/-- Renaming changes no values. -/
theorem rename_isNum (f : String → String) (c : Col) :
    (c.rename f).isNum = c.isNum := by cases c <;> rfl

theorem rename_hasValue (f : String → String) (c : Col) :
    (c.rename f).hasValue = c.hasValue := by cases c <;> rfl

theorem rename_size (f : String → String) (c : Col) :
    (c.rename f).size = c.size := by cases c <;> rfl

/-- Imputation keeps the row count. -/
theorem imputeCol_size (c : Col) : (imputeCol c).size = c.size := by
  cases c with
  | num n vs =>
    simp only [imputeCol, Col.size, fillnaQ]
    cases meanOf vs <;> simp
  | cat n vs =>
    simp only [imputeCol, Col.size, imputeCat]
    split_ifs <;> simp

/-- Imputation removes every null from a categorical column and from any
numeric column with at least one non-null entry. -/
theorem imputeCol_hasNull (c : Col) (h : c.isNum = true → c.hasValue = true) :
    (imputeCol c).hasNull = false := by
  cases c with
  | num n vs =>
    have hv : vs.any (fun v => v.isSome) = true := h rfl
    have hmean : (meanOf vs).isSome = true := by
      simp only [meanOf]
      obtain ⟨v, hvmem, hvs⟩ := List.any_eq_true.mp hv
      obtain ⟨x, rfl⟩ := Option.isSome_iff_exists.mp hvs
      have hx : x ∈ vs.filterMap id := List.mem_filterMap.mpr ⟨some x, hvmem, rfl⟩
      rw [if_neg (by simpa using List.ne_nil_of_mem hx)]
      rfl
    obtain ⟨m, hm⟩ := Option.isSome_iff_exists.mp hmean
    simp only [imputeCol, Col.hasNull, fillnaQ, hm]
    simp
  | cat n vs =>
    simp only [imputeCol, Col.hasNull, imputeCat]
    split_ifs with hsplit
    · simp
    · exact Bool.eq_false_iff.mpr hsplit

/-- Every survivor of the stage-3 row filter was present before. -/
theorem filterVals_subset {β : Type} {scores : List ℚ} {thr : ℚ} {vals : List β}
    {x : β} (hx : x ∈ filterVals scores thr vals) : x ∈ vals := by
  unfold filterVals at hx
  obtain ⟨p, hp, rfl⟩ := List.mem_map.mp hx
  exact (List.of_mem_zip (List.mem_of_mem_filter hp)).1

/-- Stage-3 filtering introduces no nulls. -/
theorem filterRows_hasNull (scores : List ℚ) (thr : ℚ) (c : Col)
    (h : c.hasNull = false) : (c.filterRows scores thr).hasNull = false := by
  cases c with
  | num n vs =>
    simp only [Col.filterRows, Col.hasNull, List.any_eq_false] at h ⊢
    exact fun v hv => h v (filterVals_subset hv)
  | cat n vs =>
    simp only [Col.filterRows, Col.hasNull, List.any_eq_false] at h ⊢
    exact fun v hv => h v (filterVals_subset hv)

/-- Length of the stage-3 filter output, given one score per row. -/
theorem filterVals_length {β : Type} (thr : ℚ) :
    ∀ (vals : List β) (scores : List ℚ), vals.length = scores.length →
      (filterVals scores thr vals).length =
        (scores.filter (fun s => !decide (thr < s))).length := by
  intro vals
  induction vals with
  | nil =>
    intro scores h
    obtain rfl : scores = [] := List.eq_nil_of_length_eq_zero h.symm
    rfl
  | cons v vs ih =>
    intro scores h
    cases scores with
    | nil => exact absurd h (by simp)
    | cons s ss =>
      simp only [filterVals, List.zip_cons_cons, List.filter_cons]
      split_ifs with hcond
      · simp only [List.map_cons, List.length_cons]
        simpa [filterVals] using ih ss (by simpa using h)
      · simpa [filterVals] using ih ss (by simpa using h)

/-- Stage 3 gives every column exactly `keptCount scores` rows. -/
theorem filterRows_size (scores : List ℚ) (c : Col)
    (h : c.size = scores.length) :
    (c.filterRows scores (percentile98 scores)).size = keptCount scores := by
  cases c with
  | num n vs => exact filterVals_length _ vs scores h
  | cat n vs => exact filterVals_length _ vs scores h

/-- Stage 4 keeps values non-null and the row count intact. -/
theorem stage4Col_hasNull (c : Col) (h : c.hasNull = false) :
    (stage4Col c).hasNull = false := by
  cases c with
  | num n vs => exact h
  | cat n vs =>
    simp only [stage4Col]
    split_ifs
    · simp only [Col.hasNull, List.any_eq_false] at h ⊢
      rintro v hv
      obtain ⟨w, hw, rfl⟩ := List.mem_map.mp hv
      have := h w hw
      cases w <;> simp_all
    · exact h

theorem stage4Col_size (c : Col) : (stage4Col c).size = c.size := by
  cases c with
  | num n vs => rfl
  | cat n vs =>
    simp only [stage4Col]
    split_ifs <;> simp [Col.size]

/-- A null-free column of size beyond `i` has a non-null entry at `i`. -/
theorem col_entry_isSome (c : Col) (i : ℕ) (hnull : c.hasNull = false)
    (hi : i < c.size) : c.entry i = true := by
  cases c with
  | num n vs =>
    have hi' : i < vs.length := hi
    have hgd : vs.getD i none = vs[i] := by
      rw [List.getD_eq_getElem?_getD, List.getElem?_eq_getElem hi']
      rfl
    simp only [Col.entry, hgd]
    simp only [Col.hasNull, List.any_eq_false] at hnull
    have := hnull vs[i] (List.getElem_mem hi')
    simpa [Option.isSome_iff_ne_none] using this
  | cat n vs =>
    have hi' : i < vs.length := hi
    have hgd : vs.getD i none = vs[i] := by
      rw [List.getD_eq_getElem?_getD, List.getElem?_eq_getElem hi']
      rfl
    simp only [Col.entry, hgd]
    simp only [Col.hasNull, List.any_eq_false] at hnull
    have := hnull vs[i] (List.getElem_mem hi')
    simpa [Option.isSome_iff_ne_none] using this

/-- A row all of whose columns are null-free and long enough is 100%
complete. -/
theorem rowCompleteness_full (cols : List Col) (i : ℕ) (h0 : cols ≠ [])
    (h : ∀ c ∈ cols, c.hasNull = false ∧ i < c.size) :
    rowCompleteness cols i = 100 := by
  have hcount : rowNonNullCount cols i = cols.length := by
    unfold rowNonNullCount
    rw [List.filter_length_eq_length]
    intro c hc
    exact col_entry_isSome c i (h c hc).1 (h c hc).2
  unfold rowCompleteness
  rw [hcount]
  have hne : ((cols.length : ℚ)) ≠ 0 := by
    simp [List.length_eq_zero, h0]
  rw [div_self hne, one_mul]

/-- Stage 5 keeps a frame null-free when every column entering it is
null-free with exactly `n` rows. -/
theorem addQuality_no_nulls (n : ℕ) (cols4 : List Col)
    (hne : cols4 ≠ [])
    (h : ∀ c ∈ cols4, c.hasNull = false ∧ c.size = n) :
    (addQuality n cols4).any (fun c => c.hasNull) = false := by
  rw [List.any_eq_false]
  intro col hcol
  unfold addQuality at hcol
  rcases List.mem_append.mp hcol with hcol | hcol
  · simp [(h col hcol).1]
  · simp only [List.mem_cons, List.not_mem_nil, or_false] at hcol
    rcases hcol with rfl | rfl
    · simp [Col.hasNull]
    · simp only [Col.hasNull]
      intro hv
      obtain ⟨v, hvmem, hvN⟩ := List.any_eq_true.mp hv
      obtain ⟨x, hx, rfl⟩ := List.mem_map.mp hvmem
      obtain ⟨i, hi, rfl⟩ := List.mem_map.mp hx
      rw [List.mem_range] at hi
      have hcomp : rowCompleteness cols4 i = 100 :=
        rowCompleteness_full cols4 i hne
          (fun c hc => ⟨(h c hc).1, by rw [(h c hc).2]; exact hi⟩)
      rw [hcomp] at hvN
      exact absurd hvN (by decide)

/-- C3 (amended): after the cleansing pipeline no null remains in any
column, provided the frame has at least one column and every numeric column
has at least one non-null value (categorical columns need nothing: their
mode imputation always fills, with `UNKNOWN` as last resort). A numeric
column that is entirely null keeps its nulls, because its mean is itself
`NaN` and `fillna(NaN)` is a no-op — see the counterexample. -/
theorem cleanser_no_nulls :
    ∀ (scores : List ℚ) (f : CFrame),
      f.cols ≠ [] →
      (∀ c ∈ f.cols, c.size = f.nrows) →
      scores.length = f.nrows →
      (∀ c ∈ f.cols, c.isNum = true → c.hasValue = true) →
      frameHasNull (clean_pipeline scores f) = false := by
  intro scores f hne hsz hslen hval
  obtain ⟨nr, cols⟩ := f
  simp only [clean_pipeline, frameHasNull]
  have h2null : ∀ c ∈ (cols.map (Col.rename stdName)).map imputeCol,
      c.hasNull = false := by
    intro c hc
    obtain ⟨c1e, hc1e, rfl⟩ := List.mem_map.mp hc
    obtain ⟨c0, hc0, rfl⟩ := List.mem_map.mp hc1e
    refine imputeCol_hasNull _ (fun hn => ?_)
    rw [rename_hasValue]
    exact hval c0 hc0 (by rwa [rename_isNum] at hn)
  have h2size : ∀ c ∈ (cols.map (Col.rename stdName)).map imputeCol,
      c.size = nr := by
    intro c hc
    obtain ⟨c1e, hc1e, rfl⟩ := List.mem_map.mp hc
    obtain ⟨c0, hc0, rfl⟩ := List.mem_map.mp hc1e
    rw [imputeCol_size, rename_size]
    exact hsz c0 hc0
  by_cases hro :
      2 ≤ (eligibleNumericNames ((cols.map (Col.rename stdName)).map imputeCol)).length
  · rw [if_pos hro, if_pos hro]
    apply addQuality_no_nulls
    · simpa using hne
    · intro c hc
      obtain ⟨c3e, hc3e, rfl⟩ := List.mem_map.mp hc
      obtain ⟨c2e, hc2e, rfl⟩ := List.mem_map.mp hc3e
      constructor
      · exact stage4Col_hasNull _ (filterRows_hasNull _ _ _ (h2null c2e hc2e))
      · rw [stage4Col_size]
        exact filterRows_size scores c2e (by rw [h2size c2e hc2e, hslen])
  · rw [if_neg hro, if_neg hro]
    apply addQuality_no_nulls
    · simpa using hne
    · intro c hc
      obtain ⟨c2e, hc2e, rfl⟩ := List.mem_map.mp hc
      exact ⟨stage4Col_hasNull _ (h2null c2e hc2e),
        by rw [stage4Col_size]; exact h2size c2e hc2e⟩

/-- C3 counterexample: a frame whose single numeric column is entirely null
leaves the cleansing pipeline with nulls still present (the all-null column
survives, and the corresponding row even gets a null `quality_rating`). -/
theorem all_null_column_keeps_nulls :
    (frameHasNull (clean_pipeline [] nullColFrame) = false) = False :=
  eq_false (by decide)

/-- C3 witness: the no-null theorem applied to a concrete frame with one
partially-null numeric and one partially-null categorical column. -/
theorem cleanser_no_nulls_check :
    frameHasNull (clean_pipeline [0, 0] wFrame) = false :=
  cleanser_no_nulls [0, 0] wFrame (by decide) (by decide) (by decide) (by decide)

/-- The interpolated 98th percentile is at least the sorted value at the
floor index. -/
theorem percentile98_ge (xs : List ℚ) (hne : xs ≠ []) :
    (xs.insertionSort (fun a b => a ≤ b)).getD (98 * (xs.length - 1) / 100) 0 ≤
      percentile98 xs := by
  have hsorted := List.sorted_insertionSort (fun a b : ℚ => a ≤ b) xs
  have hlen := (List.perm_insertionSort (fun a b : ℚ => a ≤ b) xs).length_eq
  simp only [percentile98]
  rw [hlen, if_neg (by simpa using hne)]
  apply le_add_of_nonneg_right
  apply mul_nonneg
  · positivity
  · rw [sub_nonneg]
    set L := xs.insertionSort (fun a b => a ≤ b) with hL
    set i0 := 98 * (xs.length - 1) / 100 with hi0
    rcases lt_or_ge (i0 + 1) L.length with hlt | hge
    · have h0 : i0 < L.length := by omega
      rw [List.getD_eq_getElem?_getD (n := i0 + 1), List.getElem?_eq_getElem hlt,
        Option.getD_some,
        List.getD_eq_getElem?_getD (n := i0), List.getElem?_eq_getElem h0,
        Option.getD_some]
      exact hsorted.rel_get_of_le (a := ⟨i0, h0⟩) (b := ⟨i0 + 1, hlt⟩)
        (by simp)
    · rw [List.getD_eq_getElem?_getD (n := i0 + 1), List.getElem?_eq_none hge]
      simp

/-- In a sorted list, at most the entries past index `i0` can strictly
exceed a threshold that dominates the entry at `i0`. -/
theorem sorted_countP_above {L : List ℚ} (hs : L.Sorted (fun a b => a ≤ b))
    {t : ℚ} {i0 : ℕ} (hi0 : i0 < L.length) (ht : L.getD i0 0 ≤ t) :
    L.countP (fun s => decide (t < s)) ≤ L.length - (i0 + 1) := by
  conv_lhs => rw [← List.take_append_drop (i0 + 1) L]
  rw [List.countP_append]
  have h1 : (L.take (i0 + 1)).countP (fun s => decide (t < s)) = 0 := by
    rw [List.countP_eq_zero]
    intro a ha
    obtain ⟨j, hj, rfl⟩ := List.mem_iff_getElem.mp ha
    have hjlen : j < L.length := by
      have := hj
      simp only [List.length_take] at this
      omega
    have hji0 : j ≤ i0 := by
      have := hj
      simp only [List.length_take] at this
      omega
    rw [List.getElem_take]
    have hle : L[j] ≤ L[i0] :=
      hs.rel_get_of_le (a := ⟨j, hjlen⟩) (b := ⟨i0, hi0⟩) (by simpa using hji0)
    have hgd : L.getD i0 0 = L[i0] := by
      rw [List.getD_eq_getElem?_getD, List.getElem?_eq_getElem hi0]
      rfl
    rw [hgd] at ht
    simp only [decide_eq_true_eq, not_lt]
    linarith
  rw [h1, Nat.zero_add]
  calc (L.drop (i0 + 1)).countP (fun s => decide (t < s)) ≤
      (L.drop (i0 + 1)).length := List.countP_le_length _
    _ = L.length - (i0 + 1) := List.length_drop _ _

/-- Number of scores strictly above the 98th percentile. -/
theorem count_above_percentile98 (xs : List ℚ) (hne : xs ≠ []) :
    xs.countP (fun s => decide (percentile98 xs < s)) ≤
      xs.length - (98 * (xs.length - 1) / 100 + 1) := by
  have hperm := List.perm_insertionSort (fun a b : ℚ => a ≤ b) xs
  have hsorted := List.sorted_insertionSort (fun a b : ℚ => a ≤ b) xs
  have hlen := hperm.length_eq
  rw [← hperm.countP_eq]
  have hn1 : 1 ≤ xs.length := List.length_pos.mpr hne
  have hle : 98 * (xs.length - 1) / 100 ≤ xs.length - 1 := by
    calc 98 * (xs.length - 1) / 100 ≤ 100 * (xs.length - 1) / 100 :=
      Nat.div_le_div_right (by omega)
    _ = xs.length - 1 := Nat.mul_div_cancel_left _ (by norm_num)
  have hi0 : 98 * (xs.length - 1) / 100 < (xs.insertionSort (fun a b => a ≤ b)).length := by
    rw [hlen]; omega
  have hb := sorted_countP_above hsorted hi0 (percentile98_ge xs hne)
  rw [hlen] at hb
  exact hb

/-- Arithmetic fact: removing everything above the floored 98% index leaves
at most the ceiling of two percent of `m`. -/
theorem ceil_bound (m : ℕ) : m - 98 * m / 100 ≤ (m + 49) / 50 := by omega

/-- The rows the outlier stage drops number at most `⌈(n-1)/50⌉`. -/
theorem removed_le_bound (scores : List ℚ) :
    scores.length - keptCount scores ≤ (scores.length - 1 + 49) / 50 := by
  rcases eq_or_ne scores [] with rfl | hne
  · simp [keptCount]
  have hsplit :
      scores.length =
        scores.countP (fun s => decide (percentile98 scores < s)) + keptCount scores := by
    unfold keptCount
    rw [← List.countP_eq_length_filter]
    rw [List.length_eq_countP_add_countP (fun s => decide (percentile98 scores < s))]
    congr 1
    apply List.countP_congr
    intro x _
    simp
  have hn1 : 1 ≤ scores.length := List.length_pos.mpr hne
  have hcount := count_above_percentile98 scores hne
  have hceil := ceil_bound (scores.length - 1)
  omega

/-- C5 (amended): the outlier stage drops exactly the rows whose score
strictly exceeds the 98th percentile, hence at most `⌈(n-1)/50⌉` of the `n`
rows — this can exceed 2% of `n` for small `n` (see the counterexample) —
and drops exactly 0 rows when fewer than two eligible numeric columns
exist, independently of `contamination_rate` (which the removal rule never
consults). -/
theorem outlier_removal_bound :
    ∀ (scores : List ℚ) (f : CFrame), scores.length = f.nrows →
      (f.nrows - (clean_pipeline scores f).nrows ≤ (f.nrows - 1 + 49) / 50) ∧
      ((eligibleNumericNames ((f.cols.map (Col.rename stdName)).map imputeCol)).length < 2 →
        (clean_pipeline scores f).nrows = f.nrows) := by
  intro scores f hlen
  have hnr : (clean_pipeline scores f).nrows =
      if 2 ≤ (eligibleNumericNames ((f.cols.map (Col.rename stdName)).map imputeCol)).length
      then keptCount scores else f.nrows := rfl
  constructor
  · rw [hnr]
    split_ifs with h
    · rw [← hlen]
      exact removed_le_bound scores
    · simp
  · intro hlt
    rw [hnr, if_neg (by omega)]

/-- Concrete percentile: for two scores `[0, 1]` the 98th percentile is
`0.98`, strictly below the larger score. -/
theorem percentile_eval : percentile98 [0, 1] = 49/50 := by
  norm_num [percentile98, List.insertionSort, List.orderedInsert, List.getD]

/-- The two-row frame loses one of its two rows. -/
theorem tworow_removed : (clean_pipeline [0, 1] twoRowFrame).nrows = 1 := by
  rw [show (clean_pipeline [0, 1] twoRowFrame).nrows =
      if 2 ≤ (eligibleNumericNames
          ((twoRowFrame.cols.map (Col.rename stdName)).map imputeCol)).length
      then keptCount [0, 1] else twoRowFrame.nrows from rfl,
    if_pos (by decide)]
  unfold keptCount
  rw [percentile_eval]
  norm_num [List.filter_cons, List.filter_nil]

/-- C5 counterexample: on a two-row frame with two eligible numeric columns
and distinct scores the stage removes one row — 50% of the frame, far above
the claimed 2% bound. -/
theorem outlier_two_percent_claim_false :
    (((twoRowFrame.nrows - (clean_pipeline [0, 1] twoRowFrame).nrows : ℕ) : ℚ) ≤
      2 / 100 * (twoRowFrame.nrows : ℚ)) = False := by
  apply eq_false
  intro h
  rw [tworow_removed] at h
  norm_num [twoRowFrame] at h

/-- C5 witness: the amended bound applied to the two-row frame, and the
zero-removal case applied to a frame with a single eligible numeric
column. -/
theorem outlier_removal_bound_check :
    (twoRowFrame.nrows - (clean_pipeline [0, 1] twoRowFrame).nrows ≤
      (twoRowFrame.nrows - 1 + 49) / 50) ∧
    (clean_pipeline [0, 0] wFrame).nrows = wFrame.nrows :=
  ⟨(outlier_removal_bound [0, 1] twoRowFrame rfl).1,
   (outlier_removal_bound [0, 0] wFrame rfl).2 (by decide)⟩
